import Mathlib

/-!
Shallow embedding of the Xelma backend wallet-authentication subsystem.

Sources embedded:
* `src/utils/challenge.util.ts` — challenge generation, expiry window,
  expiry predicate (the unnamed file `src/unnamed/part_000`);
* `src/routes/auth.routes.ts` — the `POST /api/auth/challenge` and
  `POST /api/auth/connect` handlers, modelled as pure functions over an
  explicit database state (`challenges`, `users`), with the external
  services (`isValidStellarAddress`, `verifySignature`, `generateToken`,
  whose implementations live outside the embedded handler code) abstracted
  as an environment of oracle functions.

Timestamps are modelled as `Int` milliseconds since the epoch (the JS
`Date` values the code compares with `<`/`>`). Each handler invocation
reads the clock as a single value `now`; the fresh randomness, the fresh
challenge row id and the fresh user id produced by the store are passed in
as explicit parameters.
-/

namespace Xelma

/-! ### Challenge utilities (`src/utils/challenge.util.ts`) -/

def CHALLENGE_EXPIRY_MINUTES : Int := 5

/-- One lowercase hex digit, as produced by the Node hex encoding of a byte
buffer. -/
def hexDigit (n : Nat) : Char :=
  if n < 10 then Char.ofNat (48 + n) else Char.ofNat (87 + n)

/-- Hex encoding of a byte list, two lowercase digits per byte. -/
def hexEncodeChars : List Nat → List Char
  | [] => []
  | b :: bs => hexDigit (b / 16) :: hexDigit (b % 16) :: hexEncodeChars bs

def hexEncode (bs : List Nat) : String := ⟨hexEncodeChars bs⟩

/-- Model of `generateChallenge`: builds the token
`xelma_auth_` + timestamp + `_` + hex-encoded random bytes.
The timestamp (`Date.now()`) and the 32 bytes drawn from `crypto.randomBytes`
are explicit parameters of the model. -/
def generateChallenge (timestamp : Int) (randomBytes : List Nat) : String :=
  "xelma_auth_" ++ toString timestamp ++ "_" ++ hexEncode randomBytes

/-- Model of `getChallengeExpiry`: now plus `CHALLENGE_EXPIRY_MINUTES` minutes
(`expiry.setMinutes(expiry.getMinutes() + CHALLENGE_EXPIRY_MINUTES)`),
in milliseconds. -/
def getChallengeExpiry (now : Int) : Int :=
  now + CHALLENGE_EXPIRY_MINUTES * 60 * 1000

/-- Model of `isChallengeExpired`: `new Date() > expiresAt`. -/
def isChallengeExpired (expiresAt : Int) (now : Int) : Bool :=
  expiresAt < now

def getChallengeExpirySeconds : Int := CHALLENGE_EXPIRY_MINUTES * 60

/-! ### Data model (Prisma rows used by `auth.routes.ts`) -/

structure AuthChallenge where
  id : Nat
  challenge : String
  walletAddress : String
  expiresAt : Int
  isUsed : Bool
  usedAt : Option Int
  userId : Option String
deriving DecidableEq, Repr

structure User where
  id : String
  walletAddress : String
  publicKey : String
  createdAt : Int
  lastLoginAt : Option Int
deriving DecidableEq, Repr

structure DB where
  challenges : List AuthChallenge
  users : List User
deriving DecidableEq, Repr

/-- Database well-formedness guaranteed by the Prisma schema's key
constraints: row ids are primary keys, `AuthChallenge.challenge` and
`User.walletAddress` are unique columns. -/
def DB.wf (db : DB) : Prop :=
  db.challenges.Pairwise (fun a b => a.id ≠ b.id) ∧
  db.challenges.Pairwise (fun a b => a.challenge ≠ b.challenge) ∧
  db.users.Pairwise (fun a b => a.walletAddress ≠ b.walletAddress)

/-! ### External services, abstracted

`isValidStellarAddress` / `verifySignature` (stellar.service) and
`generateToken` (jwt.util) are imported by the routes but their
implementations are outside the embedded code; the handlers only branch on
their results, so they are oracle parameters. -/

structure Env where
  isValidStellarAddress : String → Bool
  verifySignature : String → String → String → Bool
  generateToken : String → String → String

/-! ### Request / response shapes (`src/types/auth.types.ts`)

Request fields are `Option String`: `none` models an absent (`undefined`)
field. JavaScript's `!field` check on a string is true exactly for an
absent field or the empty string. -/

def falsyStr : Option String → Bool
  | none => true
  | some s => s == ""

structure ChallengeRequestBody where
  walletAddress : Option String
deriving DecidableEq, Repr

structure ConnectRequestBody where
  walletAddress : Option String
  challenge : Option String
  signature : Option String
deriving DecidableEq, Repr

structure UserJson where
  id : String
  walletAddress : String
  createdAt : Int
  lastLoginAt : Int
deriving DecidableEq, Repr

structure ConnectResponse where
  token : String
  user : UserJson
deriving DecidableEq, Repr

inductive ChallengeResult where
  | failure (status : Nat) (error : String) (message : String)
  | ok (challenge : String) (expiresAt : Int)
deriving DecidableEq, Repr

inductive ConnectResult where
  | failure (status : Nat) (error : String) (message : String)
  | ok (resp : ConnectResponse)
deriving DecidableEq, Repr

def ConnectResult.status : ConnectResult → Nat
  | .failure s _ _ => s
  | .ok _ => 200

def ConnectResult.errorKind : ConnectResult → String
  | .failure _ e _ => e
  | .ok _ => ""

def ConnectResult.message : ConnectResult → String
  | .failure _ _ m => m
  | .ok _ => ""

def ConnectResult.tokenOf : ConnectResult → String
  | .failure _ _ _ => ""
  | .ok resp => resp.token

def ConnectResult.userOf : ConnectResult → UserJson
  | .failure _ _ _ => ⟨"", "", 0, 0⟩
  | .ok resp => resp.user

def ChallengeResult.status : ChallengeResult → Nat
  | .failure s _ _ => s
  | .ok _ _ => 200

/-! ### `POST /api/auth/challenge` handler -/

/-- The handler's housekeeping `deleteMany` filter:
`{ walletAddress, expiresAt: { lt: new Date() } }`. A row survives the
purge iff it does not match that `where` clause. -/
def challengePurge (w : String) (now : Int) (cs : List AuthChallenge) : List AuthChallenge :=
  cs.filter (fun c => !(c.walletAddress == w && decide (c.expiresAt < now)))

/-- The `POST /api/auth/challenge` handler. `randomBytes` is the output of
`crypto.randomBytes(32)` and `newId` the row id assigned by the store. -/
def challengePost (env : Env) (db : DB) (req : ChallengeRequestBody) (now : Int)
    (randomBytes : List Nat) (newId : Nat) : ChallengeResult × DB :=
  if falsyStr req.walletAddress then
    (.failure 400 "Validation Error" "walletAddress is required", db)
  else
    let w := req.walletAddress.getD ""
    if !env.isValidStellarAddress w then
      (.failure 400 "Validation Error" "Invalid Stellar wallet address format", db)
    else
      let purged := challengePurge w now db.challenges
      let challenge := generateChallenge now randomBytes
      let expiresAt := getChallengeExpiry now
      let created : AuthChallenge :=
        { id := newId, challenge := challenge, walletAddress := w,
          expiresAt := expiresAt, isUsed := false, usedAt := none, userId := none }
      (.ok challenge expiresAt, { db with challenges := purged ++ [created] })

/-! ### `POST /api/auth/connect` handler

The handler is split at its only state-mutating suspension point after the
checks: `connectCheck` covers input validation, the `findUnique` lookup,
the wallet-binding, expiry, `isUsed` and signature checks (the expiry
branch also deletes the expired row); `connectComplete` covers everything
from the mark-used `update` on. `connect` composes them sequentially, as
a single un-raced request executes. -/

def connectCheck (env : Env) (db : DB) (req : ConnectRequestBody) (now : Int) :
    Except (ConnectResult × DB) AuthChallenge :=
  if falsyStr req.walletAddress || falsyStr req.challenge || falsyStr req.signature then
    .error (.failure 400 "Validation Error"
      "walletAddress, challenge, and signature are required", db)
  else if !env.isValidStellarAddress (req.walletAddress.getD "") then
    .error (.failure 400 "Validation Error" "Invalid Stellar wallet address format", db)
  else
    match db.challenges.find? (fun x => x.challenge == req.challenge.getD "") with
    | none => .error (.failure 401 "Authentication Error" "Invalid or expired challenge", db)
    | some authChallenge =>
      if authChallenge.walletAddress != req.walletAddress.getD "" then
        .error (.failure 401 "Authentication Error"
          "Challenge does not match wallet address", db)
      else if isChallengeExpired authChallenge.expiresAt now then
        .error (.failure 401 "Authentication Error"
          "Challenge has expired. Please request a new one.",
          { db with challenges := db.challenges.filter (fun x => x.id != authChallenge.id) })
      else if authChallenge.isUsed then
        .error (.failure 401 "Authentication Error" "Challenge has already been used", db)
      else if !env.verifySignature (req.walletAddress.getD "") (req.challenge.getD "")
          (req.signature.getD "") then
        .error (.failure 401 "Authentication Error" "Invalid signature", db)
      else
        .ok authChallenge

/-- The unconditional `update` marking the challenge used
(`where: { id }, data: { isUsed: true, usedAt: new Date() }`). -/
def markUsedOne (id : Nat) (now : Int) (x : AuthChallenge) : AuthChallenge :=
  if x.id == id then { x with isUsed := true, usedAt := some now } else x

/-- The `update` linking the challenge to the resolved user
(`where: { id }, data: { userId } }`). -/
def linkUserOne (id : Nat) (uid : String) (x : AuthChallenge) : AuthChallenge :=
  if x.id == id then { x with userId := some uid } else x

/-- Modelled from the spec: the Prisma `User` schema is not under `src/`;
the `create` call sets no `createdAt`, which per the spec's data model is
set once at first authentication ("create with `createdAt = lastLoginAt =
now` if absent"), i.e. a store-side default of the creation time. -/
def defaultCreatedAt (now : Int) : Int := now

/-- The `update` on the user row (`where: { walletAddress }, data:
{ lastLoginAt: now }`), applied pointwise to the stored users. -/
def touchLastLoginOne (w : String) (now : Int) (x : User) : User :=
  if x.walletAddress == w then { x with lastLoginAt := some now } else x

/-- Final housekeeping `deleteMany` filter of the connect handler:
`{ walletAddress, isUsed: true, usedAt: { lt: cutoff } }`; a `null`
`usedAt` never matches `lt`. -/
def connectPurge (w : String) (cutoff : Int) (cs : List AuthChallenge) : List AuthChallenge :=
  cs.filter (fun x =>
    !(x.walletAddress == w && x.isUsed &&
      (match x.usedAt with | some t => decide (t < cutoff) | none => false)))

/-- The user upsert of the connect handler: `findUnique` by wallet, then
either `create` (`walletAddress`, `publicKey: walletAddress`,
`lastLoginAt: now`) or `update` of `lastLoginAt`. Returns the resolved
user row together with the updated user table. -/
def upsertUser (w : String) (now : Int) (freshUserId : String) (users : List User) :
    User × List User :=
  match users.find? (fun u => u.walletAddress == w) with
  | none =>
    let u : User := { id := freshUserId, walletAddress := w, publicKey := w,
                      createdAt := defaultCreatedAt now, lastLoginAt := some now }
    (u, users ++ [u])
  | some u0 =>
    ({ u0 with lastLoginAt := some now }, users.map (touchLastLoginOne w now))

/-- Continuation of the connect handler after all checks passed on the
snapshot `authChallenge` read by `findUnique`. -/
def connectComplete (env : Env) (db : DB) (req : ConnectRequestBody) (now : Int)
    (freshUserId : String) (authChallenge : AuthChallenge) : ConnectResult × DB :=
  let w := req.walletAddress.getD ""
  let marked := db.challenges.map (markUsedOne authChallenge.id now)
  let uu := upsertUser w now freshUserId db.users
  let user := uu.1
  let linked := marked.map (linkUserOne authChallenge.id user.id)
  let token := env.generateToken user.id user.walletAddress
  (.ok { token := token,
         user := { id := user.id, walletAddress := user.walletAddress,
                   createdAt := user.createdAt,
                   lastLoginAt := user.lastLoginAt.getD now } },
   { challenges := connectPurge w (now - 24 * 60 * 60 * 1000) linked,
     users := uu.2 })

/-- The whole `POST /api/auth/connect` handler, one un-raced request. -/
def connect (env : Env) (db : DB) (req : ConnectRequestBody) (now : Int)
    (freshUserId : String) : ConnectResult × DB :=
  match connectCheck env db req now with
  | .error r => r
  | .ok authChallenge => connectComplete env db req now freshUserId authChallenge

/-- Two concurrent connect requests for the same triple, in the schedule
where the second request's `findUnique` (and the pure checks and signature
verification that follow it, none of which touch the store) runs before
the first request performs its mark-used `update`; every `await` in the
handler is a yield point, so this interleaving is realizable. The second
request then resumes from its snapshot after the first completed. -/
def racedConnect (env : Env) (db : DB) (req : ConnectRequestBody) (now : Int)
    (freshUserId₁ freshUserId₂ : String) : ConnectResult × ConnectResult × DB :=
  match connectCheck env db req now with
  | .error (r, db') => (r, r, db')
  | .ok snapshot =>
    let first := connect env db req now freshUserId₁
    let second := connectComplete env first.2 req now freshUserId₂ snapshot
    (first.1, second.1, second.2)

/-! ### Concrete instances used to exercise the handlers -/

/-- An environment whose oracles accept everything; the token encodes its
two inputs so that token provenance is observable. -/
def envW : Env :=
  { isValidStellarAddress := fun _ => true,
    verifySignature := fun _ _ _ => true,
    generateToken := fun uid w => uid ++ "|" ++ w }

def chW : AuthChallenge :=
  { id := 1, challenge := "tok", walletAddress := "GA",
    expiresAt := 1000, isUsed := false, usedAt := none, userId := none }

def dbW : DB := { challenges := [chW], users := [] }

def reqW : ConnectRequestBody :=
  { walletAddress := some "GA", challenge := some "tok", signature := some "sig" }

def reqMismatchW : ConnectRequestBody :=
  { walletAddress := some "GB", challenge := some "tok", signature := some "sig" }

def reqMissingW : ConnectRequestBody :=
  { walletAddress := some "GA", challenge := none, signature := some "sig" }

/-- A used and already-expired challenge of wallet `GA` (relative to
`now = 100`). -/
def usedExpiredW : AuthChallenge :=
  { id := 3, challenge := "old", walletAddress := "GA",
    expiresAt := 50, isUsed := true, usedAt := some 40, userId := none }

def dbUsedExpiredW : DB := { challenges := [usedExpiredW], users := [] }

def reqChW : ChallengeRequestBody := { walletAddress := some "GA" }

/-- A database that already holds a user for wallet `GA`. -/
def dbUserW : DB :=
  { challenges := [chW],
    users := [{ id := "u0", walletAddress := "GA", publicKey := "GA",
                createdAt := 10, lastLoginAt := some 20 }] }

def bytesW : List Nat := List.replicate 32 0

def bytesW2 : List Nat := 1 :: List.replicate 31 0

/-- An expired challenge of a different wallet (`GB`). -/
def chOtherW : AuthChallenge :=
  { id := 4, challenge := "c4", walletAddress := "GB",
    expiresAt := 50, isUsed := false, usedAt := none, userId := none }

/-- An unexpired (at `now = 100`) challenge of wallet `GA`. -/
def chUnexpiredW : AuthChallenge :=
  { id := 5, challenge := "c5", walletAddress := "GA",
    expiresAt := 500, isUsed := true, usedAt := some 60, userId := none }

def dbFrameW : DB := { challenges := [chOtherW, chUnexpiredW], users := [] }

/-! ### Helper lemmas -/

theorem find?_filter_keep {α : Type} (p q : α → Bool) :
    ∀ (l : List α) (a : α), l.find? p = some a → q a = true →
      (l.filter q).find? p = some a := by
  intro l
  induction l with
  | nil => intro a h _; simp [List.find?] at h
  | cons x xs ih =>
    intro a h hq
    by_cases hx : p x = true
    · rw [List.find?_cons_of_pos _ hx] at h
      obtain rfl : x = a := by injection h
      rw [List.filter_cons_of_pos hq]
      exact List.find?_cons_of_pos _ hx
    · rw [List.find?_cons_of_neg _ hx] at h
      rw [List.filter_cons]
      by_cases hqx : q x = true
      · rw [if_pos hqx]
        rw [List.find?_cons_of_neg _ hx]
        exact ih a h hq
      · rw [if_neg hqx]
        exact ih a h hq

theorem markUsedOne_challenge (i : Nat) (n : Int) (x : AuthChallenge) :
    (markUsedOne i n x).challenge = x.challenge := by
  unfold markUsedOne; split <;> rfl

theorem markUsedOne_walletAddress (i : Nat) (n : Int) (x : AuthChallenge) :
    (markUsedOne i n x).walletAddress = x.walletAddress := by
  unfold markUsedOne; split <;> rfl

theorem linkUserOne_challenge (i : Nat) (u : String) (x : AuthChallenge) :
    (linkUserOne i u x).challenge = x.challenge := by
  unfold linkUserOne; split <;> rfl

theorem linkUserOne_walletAddress (i : Nat) (u : String) (x : AuthChallenge) :
    (linkUserOne i u x).walletAddress = x.walletAddress := by
  unfold linkUserOne; split <;> rfl

theorem linkUserOne_isUsed (i : Nat) (u : String) (x : AuthChallenge) :
    (linkUserOne i u x).isUsed = x.isUsed := by
  unfold linkUserOne; split <;> rfl

theorem linkUserOne_usedAt (i : Nat) (u : String) (x : AuthChallenge) :
    (linkUserOne i u x).usedAt = x.usedAt := by
  unfold linkUserOne; split <;> rfl

theorem touchLastLoginOne_walletAddress (w : String) (n : Int) (x : User) :
    (touchLastLoginOne w n x).walletAddress = x.walletAddress := by
  unfold touchLastLoginOne; split <;> rfl

theorem markUsedOne_self (i : Nat) (n : Int) (x : AuthChallenge) (h : x.id = i) :
    markUsedOne i n x = { x with isUsed := true, usedAt := some n } := by
  unfold markUsedOne
  simp [h]

/-- Lookup by token commutes with mapping a token-preserving row update. -/
theorem find?_challenge_map (c : String) (f : AuthChallenge → AuthChallenge)
    (hf : ∀ x, (f x).challenge = x.challenge) (l : List AuthChallenge) :
    (l.map f).find? (fun x => x.challenge == c) =
      (l.find? (fun x => x.challenge == c)).map f := by
  rw [List.find?_map]
  have hfun : ((fun x : AuthChallenge => x.challenge == c) ∘ f) =
      (fun x : AuthChallenge => x.challenge == c) := by
    funext x
    simp [Function.comp, hf]
  rw [hfun]

/-- Inversion of a successful `connectCheck`: all the gates passed. -/
theorem connectCheck_ok_inv {env : Env} {db : DB} {req : ConnectRequestBody} {now : Int}
    {ac : AuthChallenge} (h : connectCheck env db req now = .ok ac) :
    (falsyStr req.walletAddress || falsyStr req.challenge || falsyStr req.signature) = false ∧
    env.isValidStellarAddress (req.walletAddress.getD "") = true ∧
    db.challenges.find? (fun x => x.challenge == req.challenge.getD "") = some ac ∧
    ac.walletAddress = req.walletAddress.getD "" ∧
    isChallengeExpired ac.expiresAt now = false ∧
    ac.isUsed = false ∧
    env.verifySignature (req.walletAddress.getD "") (req.challenge.getD "")
      (req.signature.getD "") = true := by
  unfold connectCheck at h
  split at h
  · exact absurd h (by simp)
  next hfal =>
  split at h
  · exact absurd h (by simp)
  next hval =>
  split at h
  · exact absurd h (by simp)
  next authChallenge hfind =>
  split at h
  · exact absurd h (by simp)
  next hwallet =>
  split at h
  · exact absurd h (by simp)
  next hexp =>
  split at h
  · exact absurd h (by simp)
  next hused =>
  split at h
  · exact absurd h (by simp)
  next hsig =>
  obtain rfl : authChallenge = ac := by injection h
  refine ⟨by simpa using hfal, by simpa using hval, hfind, by simpa using hwallet,
    by simpa using hexp, by simpa using hused, by simpa using hsig⟩

/-- A `connectCheck` rejection is always a 400 or a 401. -/
theorem connectCheck_error_status {env : Env} {db : DB} {req : ConnectRequestBody} {now : Int}
    {r : ConnectResult} {db' : DB} (h : connectCheck env db req now = .error (r, db')) :
    r.status = 400 ∨ r.status = 401 := by
  unfold connectCheck at h
  split at h
  · obtain rfl : r = .failure 400 "Validation Error"
        "walletAddress, challenge, and signature are required" := by
      injection h with h'; exact congrArg Prod.fst h'.symm
    left; rfl
  split at h
  · obtain rfl : r = .failure 400 "Validation Error" "Invalid Stellar wallet address format" := by
      injection h with h'; exact congrArg Prod.fst h'.symm
    left; rfl
  split at h
  · obtain rfl : r = .failure 401 "Authentication Error" "Invalid or expired challenge" := by
      injection h with h'; exact congrArg Prod.fst h'.symm
    right; rfl
  next authChallenge hfind =>
  split at h
  · obtain rfl : r = .failure 401 "Authentication Error"
        "Challenge does not match wallet address" := by
      injection h with h'; exact congrArg Prod.fst h'.symm
    right; rfl
  split at h
  · obtain rfl : r = .failure 401 "Authentication Error"
        "Challenge has expired. Please request a new one." := by
      injection h with h'; exact congrArg Prod.fst h'.symm
    right; rfl
  split at h
  · obtain rfl : r = .failure 401 "Authentication Error" "Challenge has already been used" := by
      injection h with h'; exact congrArg Prod.fst h'.symm
    right; rfl
  split at h
  · obtain rfl : r = .failure 401 "Authentication Error" "Invalid signature" := by
      injection h with h'; exact congrArg Prod.fst h'.symm
    right; rfl
  · exact absurd h (by simp)

theorem connectComplete_fst (env : Env) (db : DB) (req : ConnectRequestBody) (now : Int)
    (fid : String) (ac : AuthChallenge) :
    (connectComplete env db req now fid ac).1 =
      .ok { token := env.generateToken
              (upsertUser (req.walletAddress.getD "") now fid db.users).1.id
              (upsertUser (req.walletAddress.getD "") now fid db.users).1.walletAddress,
            user := { id := (upsertUser (req.walletAddress.getD "") now fid db.users).1.id,
                      walletAddress :=
                        (upsertUser (req.walletAddress.getD "") now fid db.users).1.walletAddress,
                      createdAt :=
                        (upsertUser (req.walletAddress.getD "") now fid db.users).1.createdAt,
                      lastLoginAt :=
                        ((upsertUser (req.walletAddress.getD "") now fid db.users).1.lastLoginAt).getD
                          now } } := rfl

theorem connectComplete_challenges (env : Env) (db : DB) (req : ConnectRequestBody) (now : Int)
    (fid : String) (ac : AuthChallenge) :
    (connectComplete env db req now fid ac).2.challenges =
      connectPurge (req.walletAddress.getD "") (now - 24 * 60 * 60 * 1000)
        ((db.challenges.map (markUsedOne ac.id now)).map
          (linkUserOne ac.id (upsertUser (req.walletAddress.getD "") now fid db.users).1.id)) := rfl

theorem connectComplete_users (env : Env) (db : DB) (req : ConnectRequestBody) (now : Int)
    (fid : String) (ac : AuthChallenge) :
    (connectComplete env db req now fid ac).2.users =
      (upsertUser (req.walletAddress.getD "") now fid db.users).2 := rfl

theorem upsertUser_walletAddress (w : String) (now : Int) (fid : String) (users : List User) :
    (upsertUser w now fid users).1.walletAddress = w := by
  unfold upsertUser
  split
  · rfl
  next u0 hfind =>
    have := List.find?_some hfind
    simpa using this

theorem upsertUser_users_none (w : String) (now : Int) (fid : String) (users : List User)
    (h : users.find? (fun u => u.walletAddress == w) = none) :
    (upsertUser w now fid users).2 =
      users ++ [{ id := fid, walletAddress := w, publicKey := w,
                  createdAt := defaultCreatedAt now, lastLoginAt := some now }] := by
  unfold upsertUser
  rw [h]

theorem upsertUser_users_some (w : String) (now : Int) (fid : String) (users : List User)
    (u0 : User) (h : users.find? (fun u => u.walletAddress == w) = some u0) :
    (upsertUser w now fid users).2 = users.map (touchLastLoginOne w now) := by
  unfold upsertUser
  rw [h]

/-- A 200 from `connect` means every gate of `connectCheck` passed. -/
theorem connect_ok_inv {env : Env} {db : DB} {req : ConnectRequestBody} {now : Int}
    {fid : String} (h : (connect env db req now fid).1.status = 200) :
    ∃ ac, connectCheck env db req now = .ok ac := by
  cases hcc : connectCheck env db req now with
  | error rd =>
    obtain ⟨r, d⟩ := rd
    rw [connect, hcc] at h
    rcases connectCheck_error_status hcc with h4 | h4 <;> simp [h4] at h
  | ok ac => exact ⟨ac, rfl⟩

/-- If the stored challenge for the request's token is already used (and
bound to the request's wallet), `connect` rejects with a 401
`Authentication Error` — through the expiry gate if it has meanwhile
expired, otherwise through the `isUsed` gate. -/
theorem connect_used_found_fails {env : Env} {db : DB} {req : ConnectRequestBody} {now : Int}
    {fid : String} {ac : AuthChallenge}
    (hfal : (falsyStr req.walletAddress || falsyStr req.challenge || falsyStr req.signature)
      = false)
    (hval : env.isValidStellarAddress (req.walletAddress.getD "") = true)
    (hfind : db.challenges.find? (fun x => x.challenge == req.challenge.getD "") = some ac)
    (hwallet : ac.walletAddress = req.walletAddress.getD "")
    (hused : ac.isUsed = true) :
    (connect env db req now fid).1.status = 401 ∧
    (connect env db req now fid).1.errorKind = "Authentication Error" := by
  by_cases hexp : isChallengeExpired ac.expiresAt now = true
  · simp [connect, connectCheck, hfal, hval, hfind, hwallet, hexp,
      ConnectResult.status, ConnectResult.errorKind]
  · simp [connect, connectCheck, hfal, hval, hfind, hwallet, hexp, hused,
      ConnectResult.status, ConnectResult.errorKind]

/-- After a successful run of the connect handler, the post-state still
holds the row for the request's token — bound to the same wallet and now
marked used (the end-of-request purge only removes rows used more than 24
hours before `now`). -/
theorem connect_post_challenge {env : Env} {db : DB} {req : ConnectRequestBody} {now : Int}
    {ac : AuthChallenge} (fid : String) (hcc : connectCheck env db req now = .ok ac) :
    ∃ ac', (connect env db req now fid).2.challenges.find?
        (fun x => x.challenge == req.challenge.getD "") = some ac' ∧
      ac'.walletAddress = ac.walletAddress ∧ ac'.isUsed = true := by
  obtain ⟨hfal, hval, hfind, hwallet, hexp, hused, hsig⟩ := connectCheck_ok_inv hcc
  rw [connect, hcc, connectComplete_challenges]
  set uid := (upsertUser (req.walletAddress.getD "") now fid db.users).1.id with huid
  have hA : ((db.challenges.map (markUsedOne ac.id now)).map (linkUserOne ac.id uid)).find?
      (fun x => x.challenge == req.challenge.getD "") =
      some (linkUserOne ac.id uid (markUsedOne ac.id now ac)) := by
    rw [find?_challenge_map _ _ (fun x => linkUserOne_challenge ac.id uid x),
        find?_challenge_map _ _ (fun x => markUsedOne_challenge ac.id now x), hfind]
    rfl
  refine ⟨linkUserOne ac.id uid (markUsedOne ac.id now ac), ?_, ?_, ?_⟩
  · unfold connectPurge
    refine find?_filter_keep _ _ _ _ hA ?_
    have husedAt : (linkUserOne ac.id uid (markUsedOne ac.id now ac)).usedAt = some now := by
      rw [linkUserOne_usedAt, markUsedOne_self ac.id now ac rfl]
    simp only [husedAt, Bool.not_eq_true']
    simp only [Bool.and_eq_false_iff]
    right
    simp only [decide_eq_false_iff_not]
    omega
  · rw [linkUserOne_walletAddress, markUsedOne_walletAddress]
  · rw [linkUserOne_isUsed, markUsedOne_self ac.id now ac rfl]

/-! ### Claims -/

/-- Claim C1: executing the connect handler twice sequentially with the
same `(walletAddress, challenge, signature)` triple succeeds at most once:
if the first call returns 200, the second call — run on the state the
first call left behind, at any later (or equal) clock value — fails with
a 401 `Authentication Error`, because the first call set the challenge's
`isUsed` flag and the replay gate (or, if meanwhile expired, the expiry
gate) rejects it. -/
theorem replay_second_connect_fails (env : Env) (db : DB) (req : ConnectRequestBody)
    (now₁ now₂ : Int) (fid₁ fid₂ : String)
    (h : (connect env db req now₁ fid₁).1.status = 200) :
    (connect env (connect env db req now₁ fid₁).2 req now₂ fid₂).1.status = 401 ∧
    (connect env (connect env db req now₁ fid₁).2 req now₂ fid₂).1.errorKind
      = "Authentication Error" := by
  obtain ⟨ac, hcc⟩ := connect_ok_inv h
  obtain ⟨hfal, hval, _, hwallet, _, _, _⟩ := connectCheck_ok_inv hcc
  obtain ⟨ac', hfind', hwallet', hused'⟩ := connect_post_challenge fid₁ hcc
  exact connect_used_found_fails hfal hval hfind' (hwallet'.trans hwallet) hused'

/-- Witness for C1: a concrete run where the first call succeeds and the
replayed call is rejected with a 401 `Authentication Error`. -/
theorem replay_second_connect_fails_witness :
    (connect envW dbW reqW 100 "u1").1.status = 200 ∧
    ((connect envW (connect envW dbW reqW 100 "u1").2 reqW 100 "u2").1.status = 401 ∧
     (connect envW (connect envW dbW reqW 100 "u1").2 reqW 100 "u2").1.errorKind
       = "Authentication Error") :=
  ⟨by decide, replay_second_connect_fails envW dbW reqW 100 100 "u1" "u2" (by decide)⟩

/-- Claim C2 (refuted by the code): the handler's mark-used transition is
an unconditional `update` issued after a separate `findUnique` read — a
read-then-write pair, not a conditional atomic update whose outcome is
checked. In the realizable interleaving where both concurrent holders of
the same valid triple run their `findUnique` and checks before either
writes, both requests complete with 200 on the single stored challenge,
defeating the exactly-one-success requirement. -/
theorem race_both_connects_succeed :
    dbW.challenges.length = 1 ∧
    (racedConnect envW dbW reqW 100 "u1" "u2").1.status = 200 ∧
    (racedConnect envW dbW reqW 100 "u1" "u2").2.1.status = 200 := by decide

/-- Claim C3: a stored challenge whose `expiresAt` lies strictly before
the clock at verification is rejected with a 401 `Authentication Error`
for every signature (valid or not, for any signature oracle), and the
expired row is deleted, so a subsequent lookup of that token in the
post-state returns absent. -/
theorem expired_challenge_rejected_and_deleted (env : Env) (db : DB)
    (req : ConnectRequestBody) (now : Int) (fid : String) (ac : AuthChallenge)
    (hwf : db.wf)
    (hfal : (falsyStr req.walletAddress || falsyStr req.challenge || falsyStr req.signature)
      = false)
    (hval : env.isValidStellarAddress (req.walletAddress.getD "") = true)
    (hfind : db.challenges.find? (fun x => x.challenge == req.challenge.getD "") = some ac)
    (hwallet : ac.walletAddress = req.walletAddress.getD "")
    (hexp : ac.expiresAt < now) :
    (connect env db req now fid).1 = .failure 401 "Authentication Error"
      "Challenge has expired. Please request a new one." ∧
    (connect env db req now fid).2.challenges.find?
      (fun x => x.challenge == req.challenge.getD "") = none := by
  have hexp' : isChallengeExpired ac.expiresAt now = true := by
    simp [isChallengeExpired, hexp]
  constructor
  · simp [connect, connectCheck, hfal, hval, hfind, hwallet, hexp']
  · have hchal : (connect env db req now fid).2.challenges
        = db.challenges.filter (fun x => x.id != ac.id) := by
      simp [connect, connectCheck, hfal, hval, hfind, hwallet, hexp']
    rw [hchal, List.find?_eq_none]
    intro x hx hxc
    rw [List.mem_filter] at hx
    obtain ⟨hxl, hxid⟩ := hx
    have hac_mem := List.mem_of_find?_eq_some hfind
    have hac_tok := List.find?_some hfind
    have hx_ne : x ≠ ac := by
      intro he
      subst he
      simp at hxid
    have hsymm : Symmetric (fun a b : AuthChallenge => a.challenge ≠ b.challenge) :=
      fun a b h he => h he.symm
    have hdiff := (hwf.2.1).forall hsymm hxl hac_mem hx_ne
    apply hdiff
    have h1 : x.challenge = req.challenge.getD "" := by simpa using hxc
    have h2 : ac.challenge = req.challenge.getD "" := by simpa using hac_tok
    rw [h1, h2]

/-- Witness for C3: the concrete challenge expires at 1000 and is
presented at 1001 with an always-accepting signature oracle; the call is
rejected 401 and the token is gone from the post-state. -/
theorem expired_challenge_rejected_and_deleted_witness :
    DB.wf dbW ∧ chW.expiresAt < 1001 ∧
    ((connect envW dbW reqW 1001 "u1").1 = .failure 401 "Authentication Error"
       "Challenge has expired. Please request a new one." ∧
     (connect envW dbW reqW 1001 "u1").2.challenges.find?
       (fun x => x.challenge == reqW.challenge.getD "") = none) :=
  ⟨by constructor <;> simp [dbW], by decide,
   expired_challenge_rejected_and_deleted envW dbW reqW 1001 "u1" chW
     (by constructor <;> simp [dbW]) (by decide) (by decide) (by decide) (by decide) (by decide)⟩

/-- Claim C4: a challenge bound to wallet A, presented together with a
different wallet address, is rejected with a 401 `Authentication Error`
before the signature oracle can influence the outcome (the result is the
same for every `verifySignature`), with the store untouched; no
hypothesis on expiry or `isUsed` is needed, because the wallet-binding
check precedes the expiry, `isUsed` and signature gates. -/
theorem cross_wallet_challenge_rejected (env : Env)
    (vs : String → String → String → Bool) (db : DB) (req : ConnectRequestBody)
    (now : Int) (fid : String) (ac : AuthChallenge)
    (hfal : (falsyStr req.walletAddress || falsyStr req.challenge || falsyStr req.signature)
      = false)
    (hval : env.isValidStellarAddress (req.walletAddress.getD "") = true)
    (hfind : db.challenges.find? (fun x => x.challenge == req.challenge.getD "") = some ac)
    (hwallet : ac.walletAddress ≠ req.walletAddress.getD "") :
    (connect env db req now fid).1 = .failure 401 "Authentication Error"
      "Challenge does not match wallet address" ∧
    (connect env db req now fid).2 = db ∧
    connect { env with verifySignature := vs } db req now fid = connect env db req now fid := by
  have hbne : (ac.walletAddress != req.walletAddress.getD "") = true := by
    simpa using hwallet
  refine ⟨?_, ?_, ?_⟩ <;>
    simp [connect, connectCheck, hfal, hval, hfind, hbne]

/-- Witness for C4: the challenge is bound to `GA` but presented with
wallet `GB` and a valid signature; the call is rejected 401 before the
signature matters and the store is unchanged. -/
theorem cross_wallet_challenge_rejected_witness :
    chW.walletAddress ≠ reqMismatchW.walletAddress.getD "" ∧
    ((connect envW dbW reqMismatchW 100 "u1").1 = .failure 401 "Authentication Error"
       "Challenge does not match wallet address" ∧
     (connect envW dbW reqMismatchW 100 "u1").2 = dbW ∧
     connect { envW with verifySignature := fun _ _ _ => false } dbW reqMismatchW 100 "u1"
       = connect envW dbW reqMismatchW 100 "u1") :=
  ⟨by decide,
   cross_wallet_challenge_rejected envW (fun _ _ _ => false) dbW reqMismatchW 100 "u1" chW
     (by decide) (by decide) (by decide) (by decide)⟩

/-- Claim C6: a connect request in which any of the three fields is
absent (or empty, the same JavaScript falsiness test), or whose wallet
address the validator rejects, fails with a 400 `Validation Error` and
leaves the challenge store and the user store completely unchanged. -/
theorem invalid_input_rejected_no_mutation (env : Env) (db : DB) (req : ConnectRequestBody)
    (now : Int) (fid : String)
    (h : (falsyStr req.walletAddress || falsyStr req.challenge || falsyStr req.signature) = true
       ∨ env.isValidStellarAddress (req.walletAddress.getD "") = false) :
    (connect env db req now fid).1.status = 400 ∧
    (connect env db req now fid).1.errorKind = "Validation Error" ∧
    (connect env db req now fid).2 = db := by
  by_cases hfal : (falsyStr req.walletAddress || falsyStr req.challenge
      || falsyStr req.signature) = true
  · refine ⟨?_, ?_, ?_⟩ <;>
      simp [connect, connectCheck, hfal, ConnectResult.status, ConnectResult.errorKind]
  · have hfal' : (falsyStr req.walletAddress || falsyStr req.challenge
        || falsyStr req.signature) = false := by simpa using hfal
    rcases h with h | hvalf
    · exact absurd h hfal
    · refine ⟨?_, ?_, ?_⟩ <;>
        simp [connect, connectCheck, hfal', hvalf,
          ConnectResult.status, ConnectResult.errorKind]

/-- Witness for C6: a request missing the `challenge` field is rejected
400 with both stores untouched. -/
theorem invalid_input_rejected_no_mutation_witness :
    ((falsyStr reqMissingW.walletAddress || falsyStr reqMissingW.challenge
        || falsyStr reqMissingW.signature) = true
      ∨ envW.isValidStellarAddress (reqMissingW.walletAddress.getD "") = false) ∧
    ((connect envW dbW reqMissingW 100 "u1").1.status = 400 ∧
     (connect envW dbW reqMissingW 100 "u1").1.errorKind = "Validation Error" ∧
     (connect envW dbW reqMissingW 100 "u1").2 = dbW) :=
  ⟨Or.inl (by decide),
   invalid_input_rejected_no_mutation envW dbW reqMissingW 100 "u1" (Or.inl (by decide))⟩

/-- Claim C5 counterexample: the issue-challenge housekeeping purge's
`where` clause is `{ walletAddress, expiresAt: { lt: now } }` with no
`isUsed` condition, so a used-but-expired challenge of the requesting
wallet does **not** remain in the store across the purge: here a used,
expired challenge of wallet `GA` is deleted by a successful
issue-challenge call for `GA`. -/
theorem issue_purge_deletes_used_expired :
    usedExpiredW.walletAddress = "GA" ∧ usedExpiredW.isUsed = true ∧
    isChallengeExpired usedExpiredW.expiresAt 100 = true ∧
    usedExpiredW ∈ dbUsedExpiredW.challenges ∧
    (challengePost envW dbUsedExpiredW reqChW 100 bytesW 9).1.status = 200 ∧
    usedExpiredW ∉ (challengePost envW dbUsedExpiredW reqChW 100 bytesW 9).2.challenges := by
  decide

/-- Claim C5 (amended): the housekeeping purge performed by a successful
issue-challenge call deletes exactly the requesting wallet's expired
challenges — used or not. Every challenge of another wallet and every
unexpired challenge survives into the post-state, and any stored
challenge that does not survive belonged to this wallet and was
expired. -/
theorem challengePost_purge_frame (env : Env) (db : DB) (req : ChallengeRequestBody)
    (now : Int) (bytes : List Nat) (newId : Nat)
    (hfal : falsyStr req.walletAddress = false)
    (hval : env.isValidStellarAddress (req.walletAddress.getD "") = true) :
    (∀ x ∈ db.challenges,
       (x.walletAddress ≠ req.walletAddress.getD "" ∨ ¬ x.expiresAt < now) →
       x ∈ (challengePost env db req now bytes newId).2.challenges) ∧
    (∀ x ∈ db.challenges,
       x ∉ (challengePost env db req now bytes newId).2.challenges →
       x.walletAddress = req.walletAddress.getD "" ∧ x.expiresAt < now) := by
  have hkeep : ∀ x ∈ db.challenges,
      (x.walletAddress ≠ req.walletAddress.getD "" ∨ ¬ x.expiresAt < now) →
      x ∈ (challengePost env db req now bytes newId).2.challenges := by
    intro x hx hcond
    have hpost : (challengePost env db req now bytes newId).2.challenges
        = challengePurge (req.walletAddress.getD "") now db.challenges
          ++ [{ id := newId, challenge := generateChallenge now bytes,
                walletAddress := req.walletAddress.getD "",
                expiresAt := getChallengeExpiry now, isUsed := false,
                usedAt := none, userId := none }] := by
      simp [challengePost, hfal, hval]
    rw [hpost]
    refine List.mem_append.mpr (Or.inl ?_)
    unfold challengePurge
    rw [List.mem_filter]
    refine ⟨hx, ?_⟩
    rcases hcond with h | h <;> simp [h]
  refine ⟨hkeep, ?_⟩
  intro x hx hnot
  by_contra hcon
  rw [not_and_or] at hcon
  apply hnot
  apply hkeep x hx
  rcases hcon with h | h
  · exact Or.inl h
  · exact Or.inr h

/-- Witness for C5 (amended): with one expired challenge of another
wallet and one unexpired challenge of the requesting wallet in store,
both survive the issue-challenge call for `GA` at `now = 100`. -/
theorem challengePost_purge_frame_witness :
    falsyStr reqChW.walletAddress = false ∧
    chOtherW ∈ (challengePost envW dbFrameW reqChW 100 bytesW 9).2.challenges ∧
    chUnexpiredW ∈ (challengePost envW dbFrameW reqChW 100 bytesW 9).2.challenges :=
  ⟨by decide,
   (challengePost_purge_frame envW dbFrameW reqChW 100 bytesW 9 (by decide) (by decide)).1
     chOtherW (by decide) (by decide),
   (challengePost_purge_frame envW dbFrameW reqChW 100 bytesW 9 (by decide) (by decide)).1
     chUnexpiredW (by decide) (by decide)⟩

theorem hexDigit_inj_fin : ∀ a b : Fin 16, hexDigit a.val = hexDigit b.val → a = b := by
  decide

theorem hexDigit_inj {a b : Nat} (ha : a < 16) (hb : b < 16)
    (h : hexDigit a = hexDigit b) : a = b := by
  have := hexDigit_inj_fin ⟨a, ha⟩ ⟨b, hb⟩ h
  simpa [Fin.mk.injEq] using this

theorem hexEncodeChars_length : ∀ bs : List Nat, (hexEncodeChars bs).length = 2 * bs.length := by
  intro bs
  induction bs with
  | nil => rfl
  | cons b bs ih =>
    simp only [hexEncodeChars, List.length_cons, ih]
    omega

theorem hexEncodeChars_inj : ∀ bs₁ bs₂ : List Nat, (∀ b ∈ bs₁, b < 256) →
    (∀ b ∈ bs₂, b < 256) → hexEncodeChars bs₁ = hexEncodeChars bs₂ → bs₁ = bs₂ := by
  intro bs₁
  induction bs₁ with
  | nil =>
    intro bs₂ _ _ h
    cases bs₂ with
    | nil => rfl
    | cons b bs => simp [hexEncodeChars] at h
  | cons a as ih =>
    intro bs₂ h₁ h₂ h
    cases bs₂ with
    | nil => simp [hexEncodeChars] at h
    | cons b bs =>
      simp only [hexEncodeChars] at h
      injection h with hd h
      injection h with hd₂ htail
      have ha : a < 256 := h₁ a (by simp)
      have hb : b < 256 := h₂ b (by simp)
      have hdiv : a / 16 = b / 16 := hexDigit_inj (by omega) (by omega) hd
      have hmod : a % 16 = b % 16 :=
        hexDigit_inj (Nat.mod_lt _ (by omega)) (Nat.mod_lt _ (by omega)) hd₂
      have hab : a = b := by omega
      subst hab
      rw [ih bs (fun x hx => h₁ x (List.mem_cons_of_mem _ hx))
        (fun x hx => h₂ x (List.mem_cons_of_mem _ hx)) htail]

theorem generateChallenge_data (t : Int) (bs : List Nat) :
    (generateChallenge t bs).data
      = ("xelma_auth_" ++ toString t ++ "_").data ++ hexEncodeChars bs := by
  unfold generateChallenge
  rw [String.data_append]
  rfl

/-- Claim C7: every generated challenge starts with the fixed namespace
`xelma_auth_`; the random part encodes the 32 bytes from the entropy
source as 64 lowercase hex characters; two calls whose 32 random bytes
differ produce distinct tokens (whatever their timestamps); and the
expiry computed at issuance is the issuance time plus the fixed 5-minute
window. -/
theorem generateChallenge_format_and_expiry :
    (∀ (t : Int) (bs : List Nat), ∃ rest, generateChallenge t bs = "xelma_auth_" ++ rest) ∧
    (∀ bs : List Nat, bs.length = 32 → (hexEncode bs).length = 64) ∧
    (∀ (t₁ t₂ : Int) (bs₁ bs₂ : List Nat), bs₁.length = 32 → bs₂.length = 32 →
       (∀ b ∈ bs₁, b < 256) → (∀ b ∈ bs₂, b < 256) → bs₁ ≠ bs₂ →
       generateChallenge t₁ bs₁ ≠ generateChallenge t₂ bs₂) ∧
    (∀ now : Int, getChallengeExpiry now = now + 5 * 60 * 1000) := by
  refine ⟨?_, ?_, ?_, ?_⟩
  · intro t bs
    exact ⟨toString t ++ ("_" ++ hexEncode bs), by
      simp [generateChallenge, String.append_assoc]⟩
  · intro bs hlen
    show (hexEncodeChars bs).length = 64
    rw [hexEncodeChars_length, hlen]
  · intro t₁ t₂ bs₁ bs₂ hlen₁ hlen₂ hb₁ hb₂ hne heq
    apply hne
    have hdata := congrArg String.data heq
    rw [generateChallenge_data, generateChallenge_data] at hdata
    have hlens : (hexEncodeChars bs₁).length = (hexEncodeChars bs₂).length := by
      rw [hexEncodeChars_length, hexEncodeChars_length, hlen₁, hlen₂]
    exact hexEncodeChars_inj bs₁ bs₂ hb₁ hb₂ (List.append_inj' hdata hlens).2
  · intro now
    rfl

/-- Witness for C7: two concrete 32-byte draws that differ give distinct
tokens; the hex part of a 32-byte draw is 64 characters; a concrete
expiry equals issuance plus 5 minutes. -/
theorem generateChallenge_format_and_expiry_witness :
    bytesW.length = 32 ∧ bytesW ≠ bytesW2 ∧
    (hexEncode bytesW).length = 64 ∧
    generateChallenge 100 bytesW ≠ generateChallenge 200 bytesW2 ∧
    getChallengeExpiry 100 = 100 + 5 * 60 * 1000 :=
  ⟨by decide, by decide,
   generateChallenge_format_and_expiry.2.1 bytesW (by decide),
   generateChallenge_format_and_expiry.2.2.1 100 200 bytesW bytesW2
     (by decide) (by decide) (by decide) (by decide) (by decide),
   generateChallenge_format_and_expiry.2.2.2 100⟩

/-- Claim C8: whenever the connect handler succeeds, the session token is
generated from the id and wallet address of the user record resolved by
the request's wallet address; the response's `user.walletAddress` equals
that address, the stored challenge the request consumed was bound to that
same address, and it is the address the signature oracle was consulted
on. The request carries no identity field besides the three verified
inputs. -/
theorem session_token_identity_binding (env : Env) (db : DB) (req : ConnectRequestBody)
    (now : Int) (fid : String)
    (h : (connect env db req now fid).1.status = 200) :
    (connect env db req now fid).1.userOf.walletAddress = req.walletAddress.getD "" ∧
    (connect env db req now fid).1.tokenOf
      = env.generateToken ((connect env db req now fid).1.userOf.id)
          (req.walletAddress.getD "") ∧
    (∃ ac, db.challenges.find? (fun x => x.challenge == req.challenge.getD "") = some ac ∧
       ac.walletAddress = req.walletAddress.getD "" ∧
       env.verifySignature (req.walletAddress.getD "") (req.challenge.getD "")
         (req.signature.getD "") = true) := by
  obtain ⟨ac, hcc⟩ := connect_ok_inv h
  obtain ⟨hfal, hval, hfind, hwallet, hexp, hused, hsig⟩ := connectCheck_ok_inv hcc
  have hconn : connect env db req now fid = connectComplete env db req now fid ac := by
    rw [connect, hcc]
  rw [hconn, connectComplete_fst]
  exact ⟨by simp [ConnectResult.userOf, upsertUser_walletAddress],
    by simp [ConnectResult.userOf, ConnectResult.tokenOf, upsertUser_walletAddress],
    ⟨ac, hfind, hwallet, hsig⟩⟩

/-- Witness for C8: a concrete successful run; the issued token is the
oracle's output on the resolved user id and the request's wallet. -/
theorem session_token_identity_binding_witness :
    (connect envW dbW reqW 100 "u1").1.status = 200 ∧
    ((connect envW dbW reqW 100 "u1").1.userOf.walletAddress = reqW.walletAddress.getD "" ∧
     (connect envW dbW reqW 100 "u1").1.tokenOf
       = envW.generateToken ((connect envW dbW reqW 100 "u1").1.userOf.id)
           (reqW.walletAddress.getD "") ∧
     (∃ ac, dbW.challenges.find? (fun x => x.challenge == reqW.challenge.getD "") = some ac ∧
        ac.walletAddress = reqW.walletAddress.getD "" ∧
        envW.verifySignature (reqW.walletAddress.getD "") (reqW.challenge.getD "")
          (reqW.signature.getD "") = true)) :=
  ⟨by decide, session_token_identity_binding envW dbW reqW 100 "u1" (by decide)⟩

/-- Claim C9: a successful connect upserts the user by wallet address —
appending a fresh row with `createdAt = lastLoginAt = now` when no user
existed for that wallet, and otherwise only touching `lastLoginAt` (so
the wallet of every existing row is unchanged); uniqueness of wallets
among users is preserved, and, provided the clock is not behind any
stored login time, no user's `lastLoginAt` decreases. -/
theorem user_upsert_invariants (env : Env) (db : DB) (req : ConnectRequestBody)
    (now : Int) (fid : String) (hwf : db.wf)
    (h : (connect env db req now fid).1.status = 200) :
    (connect env db req now fid).2.users.Pairwise
      (fun a b => a.walletAddress ≠ b.walletAddress) ∧
    (db.users.find? (fun u => u.walletAddress == req.walletAddress.getD "") = none →
       (connect env db req now fid).2.users
         = db.users ++ [{ id := fid, walletAddress := req.walletAddress.getD "",
                          publicKey := req.walletAddress.getD "",
                          createdAt := defaultCreatedAt now, lastLoginAt := some now }]) ∧
    (∀ u₀, db.users.find? (fun u => u.walletAddress == req.walletAddress.getD "") = some u₀ →
       (connect env db req now fid).2.users
         = db.users.map (touchLastLoginOne (req.walletAddress.getD "") now)) ∧
    ((∀ u ∈ db.users, ∀ t, u.lastLoginAt = some t → t ≤ now) →
       ∀ u ∈ db.users, ∀ u' ∈ (connect env db req now fid).2.users,
         u.walletAddress = u'.walletAddress →
         ∀ t, u.lastLoginAt = some t → ∃ t', u'.lastLoginAt = some t' ∧ t ≤ t') := by
  obtain ⟨ac, hcc⟩ := connect_ok_inv h
  have hconn : connect env db req now fid = connectComplete env db req now fid ac := by
    rw [connect, hcc]
  rw [hconn, connectComplete_users]
  have husers : Symmetric (fun a b : User => a.walletAddress ≠ b.walletAddress) :=
    fun a b hab he => hab he.symm
  cases hfind : db.users.find? (fun u => u.walletAddress == req.walletAddress.getD "") with
  | none =>
    rw [upsertUser_users_none _ _ _ _ hfind]
    have habsent : ∀ x ∈ db.users, x.walletAddress ≠ req.walletAddress.getD "" := by
      intro x hx
      have := List.find?_eq_none.mp hfind x hx
      simpa using this
    refine ⟨?_, fun _ => rfl, ?_, ?_⟩
    · rw [List.pairwise_append]
      refine ⟨hwf.2.2, List.pairwise_singleton _ _, ?_⟩
      intro a ha b hb
      rw [List.mem_singleton] at hb
      subst hb
      exact habsent a ha
    · intro u₀ hu₀
      exact absurd hu₀ (by simp)
    · intro _ u hu u' hu' hweq t ht
      rcases List.mem_append.mp hu' with hmem | hmem
      · have : u = u' := by
          by_contra hne
          exact (hwf.2.2.forall husers hu hmem hne) hweq
        subst this
        exact ⟨t, ht, le_refl t⟩
      · rw [List.mem_singleton] at hmem
        subst hmem
        exact absurd (by simpa using hweq) (habsent u hu)
  | some u₀ =>
    rw [upsertUser_users_some _ _ _ _ _ hfind]
    refine ⟨?_, ?_, fun _ _ => rfl, ?_⟩
    · rw [List.pairwise_map]
      have : ∀ a b : User,
          (touchLastLoginOne (req.walletAddress.getD "") now a).walletAddress
            ≠ (touchLastLoginOne (req.walletAddress.getD "") now b).walletAddress
          ↔ a.walletAddress ≠ b.walletAddress := by
        intro a b
        rw [touchLastLoginOne_walletAddress, touchLastLoginOne_walletAddress]
      exact List.Pairwise.imp (fun hab => by
        rw [touchLastLoginOne_walletAddress, touchLastLoginOne_walletAddress]; exact hab)
        hwf.2.2
    · intro hnone
      exact absurd hnone (by simp)
    · intro hbound u hu u' hu' hweq t ht
      obtain ⟨x, hx, hxu'⟩ := List.mem_map.mp hu'
      have hwx : u.walletAddress = x.walletAddress := by
        rw [hweq, ← hxu', touchLastLoginOne_walletAddress]
      have hux : u = x := by
        by_contra hne
        exact (hwf.2.2.forall husers hu hx hne) hwx
      subst hux
      subst hxu'
      unfold touchLastLoginOne
      by_cases hw : (u.walletAddress == req.walletAddress.getD "") = true
      · rw [if_pos hw]
        exact ⟨now, rfl, hbound u hu t ht⟩
      · rw [if_neg hw]
        exact ⟨t, ht, le_refl t⟩

/-- Witness for C9: a concrete successful run against a store already
holding a user for the wallet; wallet-uniqueness of the user table is
preserved. -/
theorem user_upsert_invariants_witness :
    DB.wf dbUserW ∧ (connect envW dbUserW reqW 100 "u1").1.status = 200 ∧
    (connect envW dbUserW reqW 100 "u1").2.users.Pairwise
      (fun a b => a.walletAddress ≠ b.walletAddress) :=
  ⟨by refine ⟨?_, ?_, ?_⟩ <;> simp [dbUserW],
   by decide,
   (user_upsert_invariants envW dbUserW reqW 100 "u1"
      (by refine ⟨?_, ?_, ?_⟩ <;> simp [dbUserW]) (by decide)).1⟩

/-- Claim C10: the expiry predicate is strict — a challenge is expired
exactly when `now` is strictly greater than `expiresAt`, so at
`now = expiresAt` it is not expired, and a verification presented at
exactly the expiry timestamp passes the expiry gate (and succeeds when
every other gate passes). -/
theorem expiry_gate_strict :
    (∀ e now : Int, isChallengeExpired e now = true ↔ e < now) ∧
    (∀ e : Int, isChallengeExpired e e = false) ∧
    (∀ (env : Env) (db : DB) (req : ConnectRequestBody) (fid : String) (ac : AuthChallenge),
       (falsyStr req.walletAddress || falsyStr req.challenge || falsyStr req.signature)
         = false →
       env.isValidStellarAddress (req.walletAddress.getD "") = true →
       db.challenges.find? (fun x => x.challenge == req.challenge.getD "") = some ac →
       ac.walletAddress = req.walletAddress.getD "" →
       ac.isUsed = false →
       env.verifySignature (req.walletAddress.getD "") (req.challenge.getD "")
         (req.signature.getD "") = true →
       (connect env db req ac.expiresAt fid).1.status = 200) := by
  refine ⟨?_, ?_, ?_⟩
  · intro e now
    simp [isChallengeExpired]
  · intro e
    simp [isChallengeExpired]
  · intro env db req fid ac hfal hval hfind hwallet hused hsig
    have hok : connectCheck env db req ac.expiresAt = .ok ac := by
      simp [connectCheck, hfal, hval, hfind, hwallet, hused, hsig, isChallengeExpired]
    rw [connect, hok, connectComplete_fst]
    rfl

/-- Witness for C10: the concrete challenge expiring at 1000, presented
at exactly 1000, passes the expiry gate and the whole flow returns 200. -/
theorem expiry_gate_strict_witness :
    isChallengeExpired chW.expiresAt chW.expiresAt = false ∧
    (connect envW dbW reqW chW.expiresAt "u1").1.status = 200 :=
  ⟨expiry_gate_strict.2.1 chW.expiresAt,
   expiry_gate_strict.2.2 envW dbW reqW "u1" chW
     (by decide) (by decide) (by decide) (by decide) (by decide) (by decide)⟩

end Xelma
